import Mathlib

/-!
# WinAppSwitcher — verification of `app_switcher.py`

A shallow embedding of the core of `app_switcher.py`:

* `clean_key_bindings` — filtering of the raw key-binding table;
* `create_table_rows` — the two-column table layout loop of `create_table`;
* `start_loop` — the keystroke dispatch loop;
* `activate_app` / `enum_callback` — window enumeration and activation.

Python strings are modelled as `List Char`; `str.upper()` as a character-wise
`Char.toUpper`; `str.strip()` as dropping whitespace from both ends; the
substring test `a in b` as `strContains`.  Platform effects (`win32gui` calls)
and console prints are made explicit: an activation run yields a trace that
records which window handles the enumeration callback was invoked on, which
platform calls were issued, and which lines were printed.  Platform-call
failures (the exceptions that `SetForegroundWindow` / `ShowWindow` may raise)
are modelled by two oracles `restoreFails fgFails : Nat → Bool`, indexed by
the window handle.
-/

/-- `win32con.SW_SHOWMINIMIZED`. -/
def SW_SHOWMINIMIZED : Nat := 2

/-- `win32con.SW_RESTORE`. -/
def SW_RESTORE : Nat := 9

/-- A top-level window as observed through `win32gui`: its handle, the
`IsWindowVisible` flag, the `GetWindowText` title, and the show-state field
`GetWindowPlacement(handle)[1]`. -/
structure Window where
  handle : Nat
  visible : Bool
  title : List Char
  showCmd : Nat
deriving DecidableEq

/-- A platform window-state call issued by the activation code. -/
inductive PlatformCall where
  | showWindow (handle : Nat) (cmd : Nat)
  | setForegroundWindow (handle : Nat)
deriving DecidableEq

/-- A line printed by `activate_app`.  `activating t` is
`print(f'Activating window: {title}')` (note the code prints the already
upper-cased title), `errorActivating` is the message of the `except` clause
inside the callback, and `notFound t` is `print(f'Window "{target}" not
found.')`. -/
inductive OutputLine where
  | activating (title : List Char)
  | errorActivating
  | notFound (target : List Char)
deriving DecidableEq

/-- Character-wise model of Python's `str.upper()`. -/
def upperStr (s : List Char) : List Char := s.map Char.toUpper

/-- Does `needle` occur at the start of `haystack`? (helper for `strContains`). -/
def startsWithChars : List Char → List Char → Bool
  | [], _ => true
  | _ :: _, [] => false
  | a :: as, b :: bs => a == b && startsWithChars as bs

/-- Model of Python's substring test `needle in haystack`. -/
def strContains (needle : List Char) : List Char → Bool
  | [] => needle.isEmpty
  | b :: bs => startsWithChars needle (b :: bs) || strContains needle bs

/-- Model of Python's `str.strip()`: drop whitespace from both ends. -/
def stripChars (s : List Char) : List Char :=
  ((s.dropWhile Char.isWhitespace).reverse.dropWhile Char.isWhitespace).reverse

/-- The result of one invocation of the `EnumWindows` callback: whether
enumeration continues (`cont`), the value of the `found` flag set by this
invocation, the platform calls issued, and the lines printed. -/
structure CallbackResult where
  cont : Bool
  found : Bool
  calls : List PlatformCall
  out : List OutputLine
deriving DecidableEq

/-- `enum_callback` of `activate_app` (src/app_switcher.py, lines 204-235).

If the window is visible and its upper-cased title contains the upper-cased
target, the code prints the activating line, then runs the `try` block:
`ShowWindow(handle, SW_RESTORE)` when the placement show-state is
`SW_SHOWMINIMIZED`, then `SetForegroundWindow(handle)`, then `found = True`.
An exception raised by either call (oracles `restoreFails` / `fgFails`)
aborts the rest of the block, is caught by the `except` clause (which prints
the error line), and leaves `found` untouched.  Either way the callback then
returns `False` (stop enumeration).  A non-matching or invisible window
issues nothing and returns `True` (continue). -/
def enum_callback (restoreFails fgFails : Nat → Bool) (target : List Char)
    (w : Window) : CallbackResult :=
  if w.visible then
    let title := upperStr w.title
    if strContains (upperStr target) title then
      let is_minimized := w.showCmd == SW_SHOWMINIMIZED
      if is_minimized && restoreFails w.handle then
        -- `ShowWindow` raised: caught, `SetForegroundWindow` never reached.
        ⟨false, false, [PlatformCall.showWindow w.handle SW_RESTORE],
         [OutputLine.activating title, OutputLine.errorActivating]⟩
      else
        let restoreCalls :=
          if is_minimized then [PlatformCall.showWindow w.handle SW_RESTORE] else []
        if fgFails w.handle then
          -- `SetForegroundWindow` raised: caught, `found` stays False.
          ⟨false, false, restoreCalls ++ [PlatformCall.setForegroundWindow w.handle],
           [OutputLine.activating title, OutputLine.errorActivating]⟩
        else
          ⟨false, true, restoreCalls ++ [PlatformCall.setForegroundWindow w.handle],
           [OutputLine.activating title]⟩
    else ⟨true, false, [], []⟩
  else ⟨true, false, [], []⟩

/-- The observable trace of one `activate_app` call: the handles the
enumeration callback was invoked on (in order), the platform calls issued,
and the lines printed. -/
structure ActivateTrace where
  inspected : List Nat
  calls : List PlatformCall
  out : List OutputLine
deriving DecidableEq

/-- `win32gui.EnumWindows(enum_callback, None)`: invoke the callback on each
window in order until one returns `False`.  Returns the final value of the
`found` flag together with the trace of the pass. -/
def enumWindows (restoreFails fgFails : Nat → Bool) (target : List Char) :
    List Window → Bool × ActivateTrace
  | [] => (false, ⟨[], [], []⟩)
  | w :: ws =>
    let r := enum_callback restoreFails fgFails target w
    if r.cont then
      let rest := enumWindows restoreFails fgFails target ws
      (rest.1, ⟨w.handle :: rest.2.inspected, r.calls ++ rest.2.calls,
                r.out ++ rest.2.out⟩)
    else
      (r.found, ⟨[w.handle], r.calls, r.out⟩)

/-- `activate_app` (src/app_switcher.py, lines 191-244).  An empty target is
falsy, so `if not target: return` yields the empty trace.  Otherwise the
windows are enumerated, and afterwards `if not found and target:` prints the
not-found line. -/
def activate_app (restoreFails fgFails : Nat → Bool) (target : List Char)
    (windows : List Window) : ActivateTrace :=
  if target.isEmpty then ⟨[], [], []⟩
  else
    let r := enumWindows restoreFails fgFails target windows
    if !r.1 && !target.isEmpty then
      ⟨r.2.inspected, r.2.calls, r.2.out ++ [OutputLine.notFound target]⟩
    else r.2

/-- The match condition of `enum_callback`: the window is visible and its
upper-cased title contains the upper-cased target. -/
def window_matches (target : List Char) (w : Window) : Bool :=
  w.visible && strContains (upperStr target) (upperStr w.title)

/-- A key-binding table: an ordered association of keys to application-title
fragments, modelling the insertion-ordered Python `dict[str, str]`. -/
abbrev Bindings : Type := List (List Char × List Char)

/-- `clean_key_bindings` (src/app_switcher.py, lines 111-125): keep exactly
the entries whose key and value are non-empty after `strip()`. -/
def clean_key_bindings (bindings : Bindings) : Bindings :=
  bindings.filter fun p => !(stripChars p.1).isEmpty && !(stripChars p.2).isEmpty

/-- `row_count_new` of `create_table` (line 144):
`int(row_count / 2) + (1 if row_count % 2 != 0 else 0)`. -/
def row_count_new_of (row_count : Nat) : Nat :=
  row_count / 2 + (if row_count % 2 != 0 then 1 else 0)

/-- The loop body of `create_table` (lines 147-158) for one index `i`:
`col_a, col_b = data_list[i]` is an unguarded subscript (it raises
`IndexError` out of bounds, modelled by `none`); the second subscript is
guarded by `if second_column_index < row_count` and otherwise the cells are
empty strings. -/
def table_row (data_list : Bindings) (row_count_new i : Nat) :
    Option (List (List Char)) :=
  match data_list[i]? with
  | none => none
  | some (col_a, col_b) =>
    let second_column_index := i + row_count_new
    let cd : List Char × List Char :=
      if second_column_index < data_list.length then
        data_list[second_column_index]?.getD ([], [])
      else ([], [])
    some [col_a, col_b, cd.1, cd.2]

/-- The `for i in range(row_count_new)` loop of `create_table`, collecting the
rows; `none` as soon as one iteration raises. -/
def table_rows_from (data_list : Bindings) (row_count_new : Nat) :
    List Nat → Option (List (List (List Char)))
  | [] => some []
  | i :: is =>
    match table_row data_list row_count_new i with
    | none => none
    | some row =>
      match table_rows_from data_list row_count_new is with
      | none => none
      | some rows => some (row :: rows)

/-- The data rows built by `create_table` (src/app_switcher.py, lines
141-161), excluding the fixed header row: clean the raw bindings, compute
`row_count_new`, and run the fill loop.  `none` models an `IndexError`. -/
def create_table_rows (bindings : Bindings) : Option (List (List (List Char))) :=
  let data_list := clean_key_bindings bindings
  let row_count_new := row_count_new_of data_list.length
  table_rows_from data_list row_count_new (List.range row_count_new)

/-- Key lookup in the bindings table: `KEY_BINDINGS[key_input]`, with the
membership test `key_input in KEY_BINDINGS.keys()` folded in as `Option`. -/
def lookupBinding : Bindings → List Char → Option (List Char)
  | [], _ => none
  | (key, value) :: rest, k => if key == k then some value else lookupBinding rest k

/-- One observable event of the interaction loop: a dispatch of an
`activate_app` call with the bound fragment and its trace. -/
inductive LoopEvent where
  | dispatch (fragment : List Char) (trace : ActivateTrace)
deriving DecidableEq

/-- `start_loop` (src/app_switcher.py, lines 165-188), run on a stream of
keystrokes (the successive results of `msvcrt.getch().decode()`), with the
window list and failure oracles fixed for the session.  Each keystroke is
capitalized (`.capitalize()` of a one-character string is its uppercase);
a non-alphabetic result breaks the loop immediately, leaving the rest of the
stream unread; an alphabetic key present in the raw `KEY_BINDINGS` dispatches
`activate_app` on the bound fragment. -/
def start_loop (bindings : Bindings) (restoreFails fgFails : Nat → Bool)
    (windows : List Window) : List Char → List LoopEvent
  | [] => []
  | c :: cs =>
    let key_input := c.toUpper
    if !key_input.isAlpha then []
    else
      match lookupBinding bindings [key_input] with
      | some fragment =>
        LoopEvent.dispatch fragment
            (activate_app restoreFails fgFails fragment windows) ::
          start_loop bindings restoreFails fgFails windows cs
      | none => start_loop bindings restoreFails fgFails windows cs

/-- Dispatch of a single looked-up key against the raw bindings, as
`start_loop` does (lines 187-188): the fragment guard inside `activate_app`
makes an empty fragment a no-op. -/
def dispatch_raw (bindings : Bindings) (restoreFails fgFails : Nat → Bool)
    (windows : List Window) (k : List Char) : ActivateTrace :=
  match lookupBinding bindings k with
  | some fragment => activate_app restoreFails fgFails fragment windows
  | none => ⟨[], [], []⟩

/-- Dispatch of a single looked-up key against the filtered registry, the
spec-side alternative that C10 compares `dispatch_raw` with. -/
def dispatch_filtered (bindings : Bindings) (restoreFails fgFails : Nat → Bool)
    (windows : List Window) (k : List Char) : ActivateTrace :=
  match lookupBinding (clean_key_bindings bindings) k with
  | some fragment => activate_app restoreFails fgFails fragment windows
  | none => ⟨[], [], []⟩

/-- The window handle a platform call addresses. -/
def callHandle : PlatformCall → Nat
  | .showWindow h _ => h
  | .setForegroundWindow h => h

/-! ## Helper lemmas about the enumeration -/

lemma enum_callback_of_no_match (rf ff : Nat → Bool) (target : List Char)
    (w : Window) (h : window_matches target w = false) :
    enum_callback rf ff target w = ⟨true, false, [], []⟩ := by
  unfold window_matches at h
  rcases Bool.and_eq_false_iff.mp h with hv | hc
  · simp [enum_callback, hv]
  · by_cases hv : w.visible
    · simp [enum_callback, hv, hc]
    · simp [enum_callback, hv]

lemma enum_callback_of_match (rf ff : Nat → Bool) (target : List Char)
    (w : Window) (h : window_matches target w = true) :
    enum_callback rf ff target w =
      if w.showCmd = SW_SHOWMINIMIZED ∧ rf w.handle = true then
        ⟨false, false, [PlatformCall.showWindow w.handle SW_RESTORE],
         [OutputLine.activating (upperStr w.title), OutputLine.errorActivating]⟩
      else if ff w.handle = true then
        ⟨false, false,
         (if w.showCmd = SW_SHOWMINIMIZED then
            [PlatformCall.showWindow w.handle SW_RESTORE] else []) ++
           [PlatformCall.setForegroundWindow w.handle],
         [OutputLine.activating (upperStr w.title), OutputLine.errorActivating]⟩
      else
        ⟨false, true,
         (if w.showCmd = SW_SHOWMINIMIZED then
            [PlatformCall.showWindow w.handle SW_RESTORE] else []) ++
           [PlatformCall.setForegroundWindow w.handle],
         [OutputLine.activating (upperStr w.title)]⟩ := by
  unfold window_matches at h
  rcases Bool.and_eq_true_iff.mp h with ⟨hv, hc⟩
  by_cases hmin : w.showCmd = SW_SHOWMINIMIZED
  · by_cases hrf : rf w.handle
    · simp [enum_callback, hv, hc, hmin, hrf]
    · by_cases hff : ff w.handle <;>
        simp [enum_callback, hv, hc, hmin, hrf, hff]
  · by_cases hff : ff w.handle <;>
      simp [enum_callback, hv, hc, hmin, hff]

lemma enumWindows_append_of_no_match (rf ff : Nat → Bool) (target : List Char)
    (ws₁ rest : List Window)
    (h : ∀ v ∈ ws₁, window_matches target v = false) :
    enumWindows rf ff target (ws₁ ++ rest) =
      ((enumWindows rf ff target rest).1,
       ⟨ws₁.map Window.handle ++ (enumWindows rf ff target rest).2.inspected,
        (enumWindows rf ff target rest).2.calls,
        (enumWindows rf ff target rest).2.out⟩) := by
  induction ws₁ with
  | nil => simp
  | cons v vs ih =>
    have hcb := enum_callback_of_no_match rf ff target v (h v (by simp))
    simp [enumWindows, hcb, ih (fun u hu => h u (by simp [hu]))]

lemma enumWindows_match_head (rf ff : Nat → Bool) (target : List Char)
    (w : Window) (ws₂ : List Window) (h : window_matches target w = true) :
    enumWindows rf ff target (w :: ws₂) =
      ((enum_callback rf ff target w).found,
       ⟨[w.handle], (enum_callback rf ff target w).calls,
        (enum_callback rf ff target w).out⟩) := by
  have hcont : (enum_callback rf ff target w).cont = false := by
    rw [enum_callback_of_match rf ff target w h]
    by_cases hmin : w.showCmd = SW_SHOWMINIMIZED ∧ rf w.handle = true
    · simp [hmin]
    · by_cases hff : ff w.handle = true <;> simp [hmin, hff]
  simp [enumWindows, hcont]

/-- Master lemma: an `activate_app` run whose window list starts with
non-matching windows followed by a matching one is entirely determined by
that prefix and the callback's behaviour on the match — the suffix is never
reached. -/
lemma activate_app_match (rf ff : Nat → Bool) (target : List Char)
    (ws₁ : List Window) (w : Window) (ws₂ : List Window)
    (htarget : target ≠ [])
    (hpre : ∀ v ∈ ws₁, window_matches target v = false)
    (hw : window_matches target w = true) :
    activate_app rf ff target (ws₁ ++ w :: ws₂) =
      ⟨ws₁.map Window.handle ++ [w.handle],
       (enum_callback rf ff target w).calls,
       if (enum_callback rf ff target w).found then
         (enum_callback rf ff target w).out
       else (enum_callback rf ff target w).out ++ [OutputLine.notFound target]⟩ := by
  have hne : target.isEmpty = false := by
    cases target with
    | nil => exact absurd rfl htarget
    | cons c cs => rfl
  unfold activate_app
  rw [enumWindows_append_of_no_match rf ff target ws₁ (w :: ws₂) hpre,
    enumWindows_match_head rf ff target w ws₂ hw]
  by_cases hfound : (enum_callback rf ff target w).found <;> simp [hne, hfound]

/-- Master lemma: when no window matches, the pass inspects every window,
issues no platform call, and prints only the not-found line. -/
lemma activate_app_no_match (rf ff : Nat → Bool) (target : List Char)
    (ws : List Window) (htarget : target ≠ [])
    (hall : ∀ v ∈ ws, window_matches target v = false) :
    activate_app rf ff target ws =
      ⟨ws.map Window.handle, [], [OutputLine.notFound target]⟩ := by
  have hne : target.isEmpty = false := by
    cases target with
    | nil => exact absurd rfl htarget
    | cons c cs => rfl
  unfold activate_app
  have h0 : enumWindows rf ff target ws =
      ((enumWindows rf ff target []).1,
       ⟨ws.map Window.handle ++ (enumWindows rf ff target []).2.inspected,
        (enumWindows rf ff target []).2.calls,
        (enumWindows rf ff target []).2.out⟩) := by
    simpa using enumWindows_append_of_no_match rf ff target ws [] hall
  rw [h0]
  simp [hne, enumWindows]

/-! ## Character lemmas (for keystroke normalization) -/

lemma uint32_le_iff (a b : UInt32) : a ≤ b ↔ a.toNat ≤ b.toNat := by
  rw [UInt32.le_def, BitVec.le_def]; rfl

lemma isLower_eq_true_iff (c : Char) : c.isLower = true ↔ 97 ≤ c.toNat ∧ c.toNat ≤ 122 := by
  simp only [Char.isLower, Bool.and_eq_true, decide_eq_true_eq, ge_iff_le, uint32_le_iff]
  exact Iff.rfl

lemma char_toNat_ofNat_valid (n : Nat) (h : n.isValidChar) : (Char.ofNat n).toNat = n := by
  rw [Char.ofNat, dif_pos h]; rfl

lemma toUpper_of_isLower_eq_false (c : Char) (h : c.isLower = false) : c.toUpper = c := by
  unfold Char.toUpper
  rw [if_neg]
  intro hc
  rw [(isLower_eq_true_iff c).mpr ⟨hc.1, hc.2⟩] at h
  simp at h

lemma toUpper_toNat_of_lower (c : Char) (h : c.isLower = true) :
    c.toUpper.toNat = c.toNat - 32 := by
  obtain ⟨h1, h2⟩ := (isLower_eq_true_iff c).mp h
  unfold Char.toUpper
  rw [if_pos ⟨h1, h2⟩]
  exact char_toNat_ofNat_valid _ (Or.inl (by omega))

lemma isLower_toUpper (c : Char) : c.toUpper.isLower = false := by
  by_cases h : c.isLower
  · obtain ⟨h1, h2⟩ := (isLower_eq_true_iff c).mp h
    have ht := toUpper_toNat_of_lower c h
    rw [Bool.eq_false_iff]
    intro hcontra
    obtain ⟨h3, _⟩ := (isLower_eq_true_iff _).mp hcontra
    omega
  · rw [toUpper_of_isLower_eq_false c (Bool.eq_false_iff.mpr h)]
    exact Bool.eq_false_iff.mpr h

lemma toUpper_toUpper (c : Char) : c.toUpper.toUpper = c.toUpper :=
  toUpper_of_isLower_eq_false _ (isLower_toUpper c)

lemma toUpper_of_isAlpha_eq_false (c : Char) (h : c.isAlpha = false) : c.toUpper = c := by
  have hl : c.isLower = false := by
    unfold Char.isAlpha at h
    exact (Bool.or_eq_false_iff.mp h).2
  exact toUpper_of_isLower_eq_false c hl

/-- On a matching window the callback always prints the activating line first,
and every platform call it issues addresses that window's handle. -/
lemma enum_callback_out_calls (rf ff : Nat → Bool) (target : List Char)
    (w : Window) (hw : window_matches target w = true) :
    (enum_callback rf ff target w).out.head?
        = some (OutputLine.activating (upperStr w.title)) ∧
    ∀ pc ∈ (enum_callback rf ff target w).calls, callHandle pc = w.handle := by
  rw [enum_callback_of_match rf ff target w hw]
  by_cases h1 : w.showCmd = SW_SHOWMINIMIZED ∧ rf w.handle = true
  · simp [h1, callHandle]
  · by_cases hmin : w.showCmd = SW_SHOWMINIMIZED
    · have hrf : rf w.handle = false := by
        rcases Bool.eq_false_or_eq_true (rf w.handle) with h | h
        · exact absurd ⟨hmin, h⟩ h1
        · exact h
      by_cases h2 : ff w.handle = true <;> simp [h1, hmin, hrf, h2, callHandle]
    · by_cases h2 : ff w.handle = true <;> simp [h1, hmin, h2, callHandle]

/-! ## Claim theorems: window activation -/

/-- C1: for every non-empty fragment and every window sequence, `activate_app`
selects exactly the first window in enumeration order that is visible and
whose title contains the fragment case-insensitively; invisible windows are
never matched, and enumeration stops at that first match: the trace inspects
exactly the non-matching prefix plus the match, is wholly independent of the
windows after the match, reports the match first, and every platform call
addresses the matched window. -/
theorem C1_first_visible_match (rf ff : Nat → Bool) (target : List Char)
    (ws₁ : List Window) (w : Window) (ws₂ : List Window)
    (htarget : target ≠ [])
    (hpre : ∀ v ∈ ws₁, window_matches target v = false)
    (hw : window_matches target w = true) :
    (activate_app rf ff target (ws₁ ++ w :: ws₂)).inspected
        = ws₁.map Window.handle ++ [w.handle] ∧
    activate_app rf ff target (ws₁ ++ w :: ws₂)
        = activate_app rf ff target (ws₁ ++ [w]) ∧
    (activate_app rf ff target (ws₁ ++ w :: ws₂)).out.head?
        = some (OutputLine.activating (upperStr w.title)) ∧
    ∀ pc ∈ (activate_app rf ff target (ws₁ ++ w :: ws₂)).calls,
      callHandle pc = w.handle := by
  obtain ⟨hhead, hcalls⟩ := enum_callback_out_calls rf ff target w hw
  rw [activate_app_match rf ff target ws₁ w ws₂ htarget hpre hw,
    activate_app_match rf ff target ws₁ w [] htarget hpre hw]
  refine ⟨rfl, rfl, ?_, hcalls⟩
  by_cases hfound : (enum_callback rf ff target w).found
  · simpa [hfound] using hhead
  · cases hout : (enum_callback rf ff target w).out with
    | nil => rw [hout] at hhead; simp at hhead
    | cons o os => rw [hout] at hhead; simp [hfound, hout]; simpa using hhead

/-- Witness for C1: target `"N"`, an invisible window with a matching title
first (skipped), then a visible match with handle 1, then a later visible
match with handle 9 that is never inspected. -/
theorem C1_first_visible_match_witness :
    (activate_app (fun _ => false) (fun _ => false) ['N']
        ([⟨5, false, ['N'], 0⟩] ++ ⟨1, true, ['A', 'N'], 0⟩ :: [⟨9, true, ['N'], 0⟩])).inspected
        = [⟨5, false, ['N'], 0⟩].map Window.handle
            ++ [(⟨1, true, ['A', 'N'], 0⟩ : Window).handle] ∧
    activate_app (fun _ => false) (fun _ => false) ['N']
        ([⟨5, false, ['N'], 0⟩] ++ ⟨1, true, ['A', 'N'], 0⟩ :: [⟨9, true, ['N'], 0⟩])
        = activate_app (fun _ => false) (fun _ => false) ['N']
            ([⟨5, false, ['N'], 0⟩] ++ [⟨1, true, ['A', 'N'], 0⟩]) ∧
    (activate_app (fun _ => false) (fun _ => false) ['N']
        ([⟨5, false, ['N'], 0⟩] ++ ⟨1, true, ['A', 'N'], 0⟩ :: [⟨9, true, ['N'], 0⟩])).out.head?
        = some (OutputLine.activating (upperStr ['A', 'N'])) ∧
    ∀ pc ∈ (activate_app (fun _ => false) (fun _ => false) ['N']
        ([⟨5, false, ['N'], 0⟩] ++ ⟨1, true, ['A', 'N'], 0⟩ :: [⟨9, true, ['N'], 0⟩])).calls,
      callHandle pc = (⟨1, true, ['A', 'N'], 0⟩ : Window).handle :=
  C1_first_visible_match (fun _ => false) (fun _ => false) ['N']
    [⟨5, false, ['N'], 0⟩] ⟨1, true, ['A', 'N'], 0⟩ [⟨9, true, ['N'], 0⟩]
    (by decide) (by decide) (by decide)

/-- C2: on the clean path (no platform-call failure) the matched window
receives a restore request exactly when its show-state is minimized, followed
unconditionally by exactly one foreground request, in that order. -/
theorem C2_restore_then_foreground (rf ff : Nat → Bool) (target : List Char)
    (ws₁ : List Window) (w : Window) (ws₂ : List Window)
    (htarget : target ≠ [])
    (hpre : ∀ v ∈ ws₁, window_matches target v = false)
    (hw : window_matches target w = true)
    (hrf : rf w.handle = false) (hff : ff w.handle = false) :
    (activate_app rf ff target (ws₁ ++ w :: ws₂)).calls
        = (if w.showCmd = SW_SHOWMINIMIZED then
             [PlatformCall.showWindow w.handle SW_RESTORE] else [])
            ++ [PlatformCall.setForegroundWindow w.handle] ∧
    (PlatformCall.showWindow w.handle SW_RESTORE
        ∈ (activate_app rf ff target (ws₁ ++ w :: ws₂)).calls
      ↔ w.showCmd = SW_SHOWMINIMIZED) := by
  rw [activate_app_match rf ff target ws₁ w ws₂ htarget hpre hw,
    enum_callback_of_match rf ff target w hw]
  by_cases hmin : w.showCmd = SW_SHOWMINIMIZED <;>
    simp [hmin, hrf, hff]

/-- Witness for C2: a minimized matching window (show-state 2) receives the
restore call and then the foreground call. -/
theorem C2_restore_then_foreground_witness :
    (activate_app (fun _ => false) (fun _ => false) ['N']
        ([] ++ ⟨3, true, ['N'], 2⟩ :: [])).calls
        = (if (⟨3, true, ['N'], 2⟩ : Window).showCmd = SW_SHOWMINIMIZED then
             [PlatformCall.showWindow (⟨3, true, ['N'], 2⟩ : Window).handle SW_RESTORE]
           else [])
            ++ [PlatformCall.setForegroundWindow (⟨3, true, ['N'], 2⟩ : Window).handle] ∧
    (PlatformCall.showWindow (⟨3, true, ['N'], 2⟩ : Window).handle SW_RESTORE
        ∈ (activate_app (fun _ => false) (fun _ => false) ['N']
            ([] ++ ⟨3, true, ['N'], 2⟩ :: [])).calls
      ↔ (⟨3, true, ['N'], 2⟩ : Window).showCmd = SW_SHOWMINIMIZED) :=
  C2_restore_then_foreground (fun _ => false) (fun _ => false) ['N']
    [] ⟨3, true, ['N'], 2⟩ []
    (by decide) (by decide) (by decide) (by decide) (by decide)

/-- Counterexample to C3 as stated: with one visible matching window whose
foreground call fails, the run prints the error line *and also* the
"not found" line — the `found` flag is only set on success, so the outcome is
not "Error rather than NotFound"; both reports are produced. -/
theorem C3_counterexample :
    OutputLine.errorActivating ∈
      (activate_app (fun _ => false) (fun _ => true) ['N']
        [⟨0, true, ['N'], 0⟩]).out ∧
    OutputLine.notFound ['N'] ∈
      (activate_app (fun _ => false) (fun _ => true) ['N']
        [⟨0, true, ['N'], 0⟩]).out := by decide

/-- C3 as amended: if the restore or foreground call on the matched window
fails, the failure is caught inside `activate_app` (the run still returns a
trace, with enumeration having stopped at the match exactly as in the success
case) and the error cause is reported; but because `found` is set only after
a successful foreground call, the "not found" line is printed as well, so the
outcome is the error report followed by the not-found report. -/
theorem C3_error_caught (rf ff : Nat → Bool) (target : List Char)
    (ws₁ : List Window) (w : Window) (ws₂ : List Window)
    (htarget : target ≠ [])
    (hpre : ∀ v ∈ ws₁, window_matches target v = false)
    (hw : window_matches target w = true)
    (hfail : (w.showCmd = SW_SHOWMINIMIZED ∧ rf w.handle = true)
        ∨ ff w.handle = true) :
    (activate_app rf ff target (ws₁ ++ w :: ws₂)).out
        = [OutputLine.activating (upperStr w.title), OutputLine.errorActivating,
           OutputLine.notFound target] ∧
    (activate_app rf ff target (ws₁ ++ w :: ws₂)).inspected
        = ws₁.map Window.handle ++ [w.handle] := by
  rw [activate_app_match rf ff target ws₁ w ws₂ htarget hpre hw,
    enum_callback_of_match rf ff target w hw]
  by_cases h1 : w.showCmd = SW_SHOWMINIMIZED ∧ rf w.handle = true
  · simp [h1]
  · have h2 : ff w.handle = true := by
      rcases hfail with h | h
      · exact absurd h h1
      · exact h
    simp [h1, h2]

/-- Witness for the amended C3: a visible matching window whose foreground
call fails yields the activating, error, and not-found lines, in that order. -/
theorem C3_error_caught_witness :
    (activate_app (fun _ => false) (fun _ => true) ['N']
        ([] ++ ⟨0, true, ['N'], 0⟩ :: [])).out
        = [OutputLine.activating (upperStr ['N']), OutputLine.errorActivating,
           OutputLine.notFound ['N']] ∧
    (activate_app (fun _ => false) (fun _ => true) ['N']
        ([] ++ ⟨0, true, ['N'], 0⟩ :: [])).inspected
        = ([] : List Window).map Window.handle
            ++ [(⟨0, true, ['N'], 0⟩ : Window).handle] :=
  C3_error_caught (fun _ => false) (fun _ => true) ['N'] [] ⟨0, true, ['N'], 0⟩ []
    (by decide) (by decide) (by decide) (Or.inr (by decide))

/-- C4: when no visible window's title contains the non-empty fragment, the
run inspects every window (a full enumeration pass), issues no platform call,
and its only output is the not-found report. -/
theorem C4_not_found (rf ff : Nat → Bool) (target : List Char)
    (ws : List Window) (htarget : target ≠ [])
    (hall : ∀ v ∈ ws, window_matches target v = false) :
    activate_app rf ff target ws
        = ⟨ws.map Window.handle, [], [OutputLine.notFound target]⟩ :=
  activate_app_no_match rf ff target ws htarget hall

/-- Witness for C4: two visible windows, neither title containing `"X"`. -/
theorem C4_not_found_witness :
    activate_app (fun _ => false) (fun _ => false) ['X']
        [⟨1, true, ['A'], 0⟩, ⟨2, true, ['B'], 0⟩]
        = ⟨[⟨1, true, ['A'], 0⟩, ⟨2, true, ['B'], 0⟩].map Window.handle, [],
           [OutputLine.notFound ['X']]⟩ :=
  C4_not_found (fun _ => false) (fun _ => false) ['X']
    [⟨1, true, ['A'], 0⟩, ⟨2, true, ['B'], 0⟩] (by decide) (by decide)

/-- C5: for the empty fragment `activate_app` is a no-op: no window is
inspected (zero enumeration), no platform call is issued, nothing is
printed. -/
theorem C5_empty_fragment_noop (rf ff : Nat → Bool) (ws : List Window) :
    activate_app rf ff [] ws = ⟨[], [], []⟩ := rfl

/-! ## Claim theorems: registry and interaction loop -/

/-- C6: `clean_key_bindings` keeps exactly the entries whose key and fragment
are non-empty after trimming, leaves the kept entries unchanged, and — being
a sublist of the input — preserves their source order. -/
theorem C6_clean_filters (bindings : Bindings) :
    List.Sublist (clean_key_bindings bindings) bindings ∧
    ∀ p : List Char × List Char,
      p ∈ clean_key_bindings bindings ↔
        p ∈ bindings ∧ stripChars p.1 ≠ [] ∧ stripChars p.2 ≠ [] := by
  refine ⟨List.filter_sublist _, fun p => ?_⟩
  simp [clean_key_bindings, List.mem_filter, List.isEmpty_iff, and_assoc]

/-- Witness for C6 on the spec's own example `{'A': '', 'B': 'X'}`: the
filtered registry is a sublist, and membership of `B -> X` is as
characterized. -/
theorem C6_clean_filters_witness :
    List.Sublist (clean_key_bindings [(['A'], []), (['B'], ['X'])])
        [(['A'], []), (['B'], ['X'])] ∧
    ((['B'], ['X']) ∈ clean_key_bindings [(['A'], []), (['B'], ['X'])] ↔
      (['B'], ['X']) ∈ [(['A'], []), (['B'], ['X'])] ∧
        stripChars (['B'], (['X'] : List Char)).1 ≠ [] ∧
        stripChars (['B'], (['X'] : List Char)).2 ≠ []) :=
  ⟨(C6_clean_filters [(['A'], []), (['B'], ['X'])]).1,
   (C6_clean_filters [(['A'], []), (['B'], ['X'])]).2 (['B'], ['X'])⟩

/-- C7: a keystroke whose character is not alphabetic breaks the loop at once:
no event is produced for it and none for any later keystroke, whatever the
bindings are. -/
theorem C7_nonletter_terminates (bindings : Bindings) (rf ff : Nat → Bool)
    (ws : List Window) (c : Char) (cs : List Char) (h : c.isAlpha = false) :
    start_loop bindings rf ff ws (c :: cs) = [] := by
  have hup : c.toUpper = c := toUpper_of_isAlpha_eq_false c h
  simp [start_loop, hup, h]

/-- Witness for C7: pressing `5` with a non-empty registry and further
keystrokes pending produces no events at all. -/
theorem C7_nonletter_terminates_witness :
    start_loop [(['A'], ['X'])] (fun _ => false) (fun _ => false)
        [⟨1, true, ['X'], 0⟩] ['5', 'a'] = [] :=
  C7_nonletter_terminates [(['A'], ['X'])] (fun _ => false) (fun _ => false)
    [⟨1, true, ['X'], 0⟩] '5' ['a'] (by decide)

/-- Counterexample to C8 as stated: `clean_key_bindings` does *not* normalize
registry keys to uppercase — a lowercase key survives unchanged, and a
capitalized keystroke therefore fails to find it. -/
theorem C8_counterexample :
    clean_key_bindings [(['a'], ['X'])] = [(['a'], ['X'])] ∧
    clean_key_bindings [(['a'], ['X'])] ≠ [(['A'], ['X'])] ∧
    lookupBinding (clean_key_bindings [(['a'], ['X'])]) ['A'] = none := by
  decide

/-- C8 as amended: the registry is not case-normalized by the load/clean step;
only the keystroke is normalized (capitalized to uppercase) before lookup, so
a lowercase letter press behaves exactly like its uppercase counterpart — a
binding is dispatchable only under its exact stored (uppercase) key. -/
theorem C8_keystroke_uppercased (bindings : Bindings) (rf ff : Nat → Bool)
    (ws : List Window) (c : Char) (cs : List Char) :
    start_loop bindings rf ff ws (c :: cs)
        = start_loop bindings rf ff ws (c.toUpper :: cs) := by
  simp only [start_loop, toUpper_toUpper]

/-! ## Claim theorems: table layout -/

/-- The table shape asserted by claim C9: with `n` filtered entries there are
`ceil(n/2)` rows; row `i` holds entry `i` in its left key/application cells
and entry `i + ceil(n/2)` in its right cells, the right cells falling back to
empty strings when that index runs past the end (odd `n`). -/
def table_rows_claim (data_list : Bindings) : List (List (List Char)) :=
  let rcn := (data_list.length + 1) / 2
  (List.range rcn).map fun i =>
    let p := data_list.getD i ([], [])
    let q := data_list.getD (i + rcn) ([], [])
    [p.1, p.2, q.1, q.2]

lemma row_count_new_of_eq (n : Nat) : row_count_new_of n = (n + 1) / 2 := by
  rcases Nat.mod_two_eq_zero_or_one n with h | h <;>
    simp [row_count_new_of, h] <;> omega

lemma table_row_eq (dl : Bindings) (rcn i : Nat) (hi : i < dl.length) :
    table_row dl rcn i =
      some [(dl.getD i ([], [])).1, (dl.getD i ([], [])).2,
            (dl.getD (i + rcn) ([], [])).1, (dl.getD (i + rcn) ([], [])).2] := by
  unfold table_row
  rw [List.getElem?_eq_getElem hi]
  by_cases hj : i + rcn < dl.length
  · simp [hj, List.getD_eq_getElem?_getD, List.getElem?_eq_getElem hi]
  · have hn : dl[i + rcn]? = none := List.getElem?_eq_none (by omega)
    simp [hj, List.getD_eq_getElem?_getD, List.getElem?_eq_getElem hi, hn]

lemma table_rows_from_eq (dl : Bindings) (rcn : Nat) (l : List Nat)
    (h : ∀ i ∈ l, i < dl.length) :
    table_rows_from dl rcn l =
      some (l.map fun i =>
        [(dl.getD i ([], [])).1, (dl.getD i ([], [])).2,
         (dl.getD (i + rcn) ([], [])).1, (dl.getD (i + rcn) ([], [])).2]) := by
  induction l with
  | nil => rfl
  | cons j js ih =>
    have hj : j < dl.length := h j (by simp)
    unfold table_rows_from
    rw [table_row_eq dl rcn j hj, ih (fun i hi => h i (by simp [hi]))]
    simp

/-- C9: for every raw bindings mapping, the table-building loop never indexes
out of bounds (it returns `some` rows, never the `IndexError` value `none`),
and produces exactly `ceil(n/2)` data rows of the claimed shape — left cells
from entries `0..ceil(n/2)-1`, right cells from the remaining entries with
empty-string padding when `n` is odd; an empty filtered registry yields no
data rows. -/
theorem C9_table_never_out_of_bounds (bindings : Bindings) :
    create_table_rows bindings
        = some (table_rows_claim (clean_key_bindings bindings)) ∧
    (table_rows_claim (clean_key_bindings bindings)).length
        = ((clean_key_bindings bindings).length + 1) / 2 ∧
    (clean_key_bindings bindings = [] → create_table_rows bindings = some []) := by
  set dl := clean_key_bindings bindings with hdl
  have hrcn : row_count_new_of dl.length = (dl.length + 1) / 2 :=
    row_count_new_of_eq dl.length
  have hmain : create_table_rows bindings = some (table_rows_claim dl) := by
    show table_rows_from dl (row_count_new_of dl.length)
        (List.range (row_count_new_of dl.length))
      = some ((List.range ((dl.length + 1) / 2)).map fun i =>
          [(dl.getD i ([], [])).1, (dl.getD i ([], [])).2,
           (dl.getD (i + (dl.length + 1) / 2) ([], [])).1,
           (dl.getD (i + (dl.length + 1) / 2) ([], [])).2])
    rw [hrcn]
    exact table_rows_from_eq dl ((dl.length + 1) / 2) (List.range ((dl.length + 1) / 2))
      (fun i hi => by
        have := List.mem_range.mp hi
        omega)
  refine ⟨hmain, ?_, fun hempty => ?_⟩
  · simp [table_rows_claim]
  · rw [hmain]
    simp [table_rows_claim, hempty]

/-- Witness for C9 on a concrete three-entry registry (odd count: the second
row's right cells are empty) and on the empty registry. -/
theorem C9_table_never_out_of_bounds_witness :
    create_table_rows [(['A'], ['1']), (['B'], ['2']), (['C'], ['3'])]
        = some (table_rows_claim
            (clean_key_bindings [(['A'], ['1']), (['B'], ['2']), (['C'], ['3'])])) ∧
    (table_rows_claim
        (clean_key_bindings [(['A'], ['1']), (['B'], ['2']), (['C'], ['3'])])).length
        = ((clean_key_bindings
            [(['A'], ['1']), (['B'], ['2']), (['C'], ['3'])]).length + 1) / 2 ∧
    create_table_rows ([] : Bindings) = some [] :=
  ⟨(C9_table_never_out_of_bounds [(['A'], ['1']), (['B'], ['2']), (['C'], ['3'])]).1,
   (C9_table_never_out_of_bounds [(['A'], ['1']), (['B'], ['2']), (['C'], ['3'])]).2.1,
   (C9_table_never_out_of_bounds ([] : Bindings)).2.2 (by decide)⟩

/-! ## Claim theorems: raw-versus-filtered dispatch -/

lemma lookupBinding_eq_some_mem (bindings : Bindings) (k v : List Char)
    (h : lookupBinding bindings k = some v) : (k, v) ∈ bindings := by
  induction bindings with
  | nil => simp [lookupBinding] at h
  | cons p rest ih =>
    obtain ⟨key, value⟩ := p
    unfold lookupBinding at h
    by_cases hk : key == k
    · rw [if_pos hk] at h
      have hkey : key = k := by simpa using hk
      have hval : value = v := by simpa using h
      subst hkey; subst hval
      exact List.mem_cons_self _ _
    · rw [if_neg hk] at h
      exact List.mem_cons_of_mem _ (ih h)

lemma lookupBinding_eq_none_of_not_mem_keys (bindings : Bindings) (k : List Char)
    (h : k ∉ bindings.map Prod.fst) : lookupBinding bindings k = none := by
  induction bindings with
  | nil => rfl
  | cons p rest ih =>
    obtain ⟨key, value⟩ := p
    unfold lookupBinding
    have hk : ¬(key == k) = true := by
      intro hkey
      apply h
      have hkey' : key = k := by simpa using hkey
      rw [← hkey']
      exact List.mem_map.mpr ⟨(key, value), List.mem_cons_self _ _, rfl⟩
    rw [if_neg hk]
    exact ih (fun hmem => h (List.mem_cons_of_mem _ hmem))

lemma lookupBinding_filter_of_nodup (p : List Char × List Char → Bool)
    (bindings : Bindings) (k : List Char)
    (hnd : (bindings.map Prod.fst).Nodup) :
    lookupBinding (bindings.filter p) k =
      match lookupBinding bindings k with
      | some v => if p (k, v) then some v else none
      | none => none := by
  induction bindings with
  | nil => rfl
  | cons q rest ih =>
    obtain ⟨key, value⟩ := q
    obtain ⟨hknotin, hndrest⟩ : (∀ x, (key, x) ∉ rest) ∧ (rest.map Prod.fst).Nodup := by
      simpa [List.nodup_cons] using hnd
    by_cases hk : (key == k) = true
    · have hkey : key = k := by simpa using hk
      subst hkey
      have hr : lookupBinding ((key, value) :: rest) key = some value := by
        unfold lookupBinding
        rw [if_pos (by simp)]
      rw [hr]
      have hrest : lookupBinding (rest.filter p) key = none := by
        apply lookupBinding_eq_none_of_not_mem_keys
        intro hmem
        obtain ⟨⟨k₂, v₂⟩, hmem₂, hfst⟩ := List.mem_map.mp hmem
        have hmem₃ := List.mem_of_mem_filter hmem₂
        have hkeq : (k₂ : List Char) = key := hfst
        rw [hkeq] at hmem₃
        exact hknotin v₂ hmem₃
      show lookupBinding (((key, value) :: rest).filter p) key
          = if p (key, value) = true then some value else none
      by_cases hp : p (key, value) = true
      · rw [List.filter_cons, if_pos hp, if_pos hp]
        unfold lookupBinding
        rw [if_pos (by simp)]
      · rw [List.filter_cons, if_neg hp, if_neg hp, hrest]
    · have hr : lookupBinding ((key, value) :: rest) k = lookupBinding rest k := by
        show (if (key == k) = true then some value else lookupBinding rest k)
            = lookupBinding rest k
        rw [if_neg hk]
      rw [hr]
      by_cases hp : p (key, value) = true
      · rw [List.filter_cons, if_pos hp]
        show (if (key == k) = true then some value
              else lookupBinding (rest.filter p) k)
            = match lookupBinding rest k with
              | some v => if p (k, v) = true then some v else none
              | none => none
        rw [if_neg hk]
        exact ih hndrest
      · rw [List.filter_cons, if_neg hp]
        exact ih hndrest

/-- C10: when every raw fragment is either empty or survives trimming, and
the raw keys are distinct (a Python `dict` invariant), dispatching a pressed
key against the raw bindings — relying on `activate_app`'s empty-fragment
guard — is observationally the same trace as dispatching against the filtered
registry, even though `start_loop` looks the key up in the raw, unfiltered
mapping. -/
theorem C10_raw_dispatch_equiv (bindings : Bindings) (rf ff : Nat → Bool)
    (ws : List Window) (k : List Char)
    (hnd : (bindings.map Prod.fst).Nodup)
    (hfrag : ∀ p ∈ bindings, p.2 = [] ∨ stripChars p.2 ≠ [])
    (hk : stripChars k ≠ []) :
    dispatch_raw bindings rf ff ws k = dispatch_filtered bindings rf ff ws k := by
  unfold dispatch_raw dispatch_filtered clean_key_bindings
  rw [lookupBinding_filter_of_nodup _ _ _ hnd]
  cases hlb : lookupBinding bindings k with
  | none => rfl
  | some v =>
    have hmem : (k, v) ∈ bindings := lookupBinding_eq_some_mem bindings k v hlb
    rcases hfrag _ hmem with hv | hv
    · subst hv
      have hp : (!(stripChars k).isEmpty && !(stripChars ([] : List Char)).isEmpty)
          = false := by
        simp [stripChars]
      simp only [hp, Bool.false_eq_true, if_false]
      rfl
    · have hp : (!(stripChars k).isEmpty && !(stripChars v).isEmpty) = true := by
        simp [List.isEmpty_iff, hk, hv]
      simp only [hp, if_true]

/-- Witness for C10: the spec's registry shape `{'A': '', 'B': 'X'}` — pressing
`A` (bound to the empty fragment) and dispatching raw or filtered gives the
same (empty) trace. -/
theorem C10_raw_dispatch_equiv_witness :
    dispatch_raw [(['A'], []), (['B'], ['X'])] (fun _ => false) (fun _ => false)
        [⟨1, true, ['X'], 0⟩] ['A']
      = dispatch_filtered [(['A'], []), (['B'], ['X'])] (fun _ => false)
          (fun _ => false) [⟨1, true, ['X'], 0⟩] ['A'] :=
  C10_raw_dispatch_equiv [(['A'], []), (['B'], ['X'])] (fun _ => false)
    (fun _ => false) [⟨1, true, ['X'], 0⟩] ['A']
    (by decide) (by decide) (by decide)
